import Mathlib

/-!
Shallow embedding of `src/commands/display.ts` from voldikss/coc-translator,
together with proofs about its content builder (`buildContent`), layout
computation (`winSize`), centering pass and render dispatch (`popup`), and the
secondary actions (`echo`, `replace`).

Strings are modelled by Lean `String` (a wrapper around `List Char`); the JS
`.length` of a line is modelled by `String.length` and `s.startsWith(p)` by a
character-wise prefix test.  Host interaction (nvim) is modelled by an oracle
structure `Host` for queries and by an explicit trace of `HostEffect` values
for commands, in the order the source issues them.
-/

/-- Modelled from the spec: `EngineResult` of §3 (the declaration file
`src/types.ts` is not part of the sources).  `phonetic`/`paraphrase` are
optional; JS truthiness treats both `undefined` and `""` as falsy. -/
structure EngineResult where
  engine : String
  phonetic : Option String
  paraphrase : Option String
  explain : List String
deriving DecidableEq, Repr

/-- Modelled from the spec: `Translation` of §3 (`src/types.ts` is not part of
the sources): the queried text plus the per-engine results. -/
structure Translation where
  text : String
  results : List EngineResult
deriving DecidableEq, Repr

/-- JS truthiness of an optional string field (`undefined` and `""` are falsy). -/
def optTruthy : Option String → Bool
  | some s => s != ""
  | none => false

/-- Lines contributed by one engine result in `Display.buildContent`
(display.ts lines 12-18): a blank separator, the divider
`------ engine ------`, then the optional phonetic, paraphrase and explain
lines, each guarded by JS truthiness. -/
def engineLines (t : EngineResult) : List String :=
  [" ", "------ " ++ t.engine ++ " ------"]
    ++ (match t.phonetic with
        | some p => if p != "" then ["🔉 [" ++ p ++ "]"] else []
        | none => [])
    ++ (match t.paraphrase with
        | some p => if p != "" then ["📕 " ++ p] else []
        | none => [])
    ++ (if t.explain.length != 0 then t.explain.map (fun i => "📝 " ++ i) else [])

/-- Concatenation of `engineLines` over the results, in input order. -/
def buildContentAux : List EngineResult → List String
  | [] => []
  | t :: rest => engineLines t ++ buildContentAux rest

/-- `Display.buildContent` (display.ts lines 9-21): the title line
`@ text @` followed by each engine block. -/
def buildContent (trans : Translation) : List String :=
  ("@ " ++ trans.text ++ " @") :: buildContentAux trans.results

/-- The host editor as a query oracle: viewport columns and rows (for the
`&columns` / `&lines` evals) and the `strdisplaywidth` call. -/
structure Host where
  columns : Nat
  rows : Nat
  strdisplaywidth : String → Nat

/-- The size configuration read from `winConfig` (`maxWidth` / `maxHeight`),
the sentinel `0` meaning "derive from the viewport". -/
structure WinConfig where
  maxWidth : Nat
  maxHeight : Nat
deriving DecidableEq, Repr

/-- Resolution of a configured dimension in `Display.winSize` (display.ts
lines 28-35): a configured `0` becomes `Math.round(0.6 * dim)` of the viewport
dimension, which for a natural `d` is `(6 * d + 5) / 10` (round half up). -/
def resolveDim (cfgVal hostDim : Nat) : Nat :=
  if cfgVal = 0 then (6 * hostDim + 5) / 10 else cfgVal

/-- One iteration of the loop in `Display.winSize` (display.ts lines 36-45) on
the accumulator `(height, width)`, where `lineWidth` is
`strdisplaywidth(line) + 2`: an overflowing line forces `width = maxWidth` and
adds `floor(lineWidth / maxWidth) + 1` rows, a fitting line adds one row and
takes the running maximum of widths. -/
def winSizeStep (maxWidth : Nat) (acc : Nat × Nat) (lineWidth : Nat) : Nat × Nat :=
  if lineWidth > maxWidth then
    (acc.1 + lineWidth / maxWidth + 1, maxWidth)
  else
    (acc.1 + 1, max lineWidth acc.2)

/-- The loop of `Display.winSize` folded over the line widths in order. -/
def winSizeLoop (maxWidth : Nat) (acc : Nat × Nat) (lineWidths : List Nat) : Nat × Nat :=
  lineWidths.foldl (winSizeStep maxWidth) acc

/-- `Display.winSize` (display.ts lines 23-48): resolves the dimensions,
folds the loop over `strdisplaywidth(line) + 2` for each line, and clamps the
resulting height to `maxHeight`.  Returns `(height, width)`. -/
def winSize (host : Host) (cfg : WinConfig) (content : List String) : Nat × Nat :=
  let maxWidth := resolveDim cfg.maxWidth host.columns
  let maxHeight := resolveDim cfg.maxHeight host.rows
  let hw := winSizeLoop maxWidth (0, 0) (content.map (fun line => host.strdisplaywidth line + 2))
  (if hw.1 > maxHeight then maxHeight else hw.1, hw.2)

/-- Models JS `s.startsWith(pre)`: character-wise prefix test. -/
def jsStartsWith (s pre : String) : Bool :=
  pre.data.isPrefixOf s.data

/-- Models JS `c.repeat(n)` for the single-character fillers of `popup`
(`'-'` and `' '`), for a non-negative count.  JS `repeat` throws a
`RangeError` on a negative count; `centerLine` returns `none` there. -/
def jsRepeat (c : Char) (n : Nat) : String :=
  String.mk (List.replicate n c)

/-- The centering of one line in `Display.popup` (display.ts lines 54-64),
applied with the final `width`.  A divider line (`startsWith('---')`) shorter
than `width` is surrounded by `floor((width - len) / 2)` dashes on both sides
plus one extra dash when the difference is odd; a title line (`startsWith('@')`)
gets the same padding on the left only — with no length guard, so when the
line is longer than `width` the JS `repeat` count `floor((width - len) / 2)` is
negative and `repeat` throws (modelled as `none`); every other line is kept. -/
def centerLine (width : Nat) (line : String) : Option String :=
  if jsStartsWith line "---" ∧ width > line.length then
    some (jsRepeat '-' ((width - line.length) / 2) ++ line
          ++ jsRepeat '-' ((width - line.length) / 2)
          ++ jsRepeat '-' ((width - line.length) % 2))
  else if jsStartsWith line "@" then
    if line.length ≤ width then
      some (jsRepeat ' ' ((width - line.length) / 2) ++ line)
    else
      none
  else
    some line

/-- The centering loop of `Display.popup` over all lines, in order; `none` as
soon as one line throws (the JS loop aborts at the first `RangeError`). -/
def centerAll (width : Nat) : List String → Option (List String)
  | [] => some []
  | line :: rest =>
    match centerLine width line with
    | none => none
    | some line2 =>
      match centerAll width rest with
      | none => none
      | some rest2 => some (line2 :: rest2)

/-- A host-visible effect issued by `popup` or `replace`, in issue order.
Each constructor documents the literal nvim call it stands for. -/
inductive HostEffect where
  /-- Models `nvim.eval(&columns)` (display.ts line 29). -/
  | evalColumns
  /-- Models `nvim.eval(&lines)` (display.ts line 33). -/
  | evalLines
  /-- Models `nvim.call(strdisplaywidth, line)` (display.ts line 37). -/
  | callDisplayWidth (line : String)
  /-- Models `floatFactory.create(docs)` with the window height, width and the
  newline-joined content tagged `translation` (display.ts lines 67-78). -/
  | floatCreate (height width : Nat) (content : String)
  /-- Models `nvim.pauseNotification()`. -/
  | pause
  /-- Models `nvim.call(coc#util#preview_info, [content, translation], true)`. -/
  | previewInfo (content : List String)
  /-- Models `nvim.command(redraw, true)`. -/
  | redraw
  /-- Models `nvim.command(let reg_tmp=@a, true)`: save the scratch register. -/
  | saveRegToTmp
  /-- Models the command setting register `a` to the paraphrase text
  (display.ts line 121). -/
  | setRegA (text : String)
  /-- Models `nvim.command(normal! viw"ap, true)`: paste over the word under
  the cursor. -/
  | pasteReplaceWord
  /-- Models `nvim.command(let @a=reg_tmp, true)`: restore the register. -/
  | restoreRegFromTmp
  /-- Models `nvim.resumeNotification()`. -/
  | resume
  /-- Models `showMessage(text)`. -/
  | message (text : String)
deriving DecidableEq, Repr

/-- The host capability flags consulted by `popup`
(`workspace.env.floating` / `workspace.env.textprop`). -/
structure RenderCaps where
  floating : Bool
  textprop : Bool
deriving DecidableEq, Repr

/-- The host queries `Display.winSize` performs, in order: the viewport evals
when the corresponding configured dimension is the sentinel `0`, then one
`strdisplaywidth` call per line. -/
def winSizeEffects (cfg : WinConfig) (content : List String) : List HostEffect :=
  (if cfg.maxWidth = 0 then [HostEffect.evalColumns] else [])
    ++ (if cfg.maxHeight = 0 then [HostEffect.evalLines] else [])
    ++ content.map HostEffect.callDisplayWidth

/-- The render dispatch of `Display.popup` (display.ts lines 66-87): with
floating or textprop support, one overlay creation sized
`(height, width + 2)` over the joined lines; otherwise the batched
preview-info/redraw fallback. -/
def renderEffects (caps : RenderCaps) (height width : Nat) (content : List String) :
    List HostEffect :=
  if caps.floating || caps.textprop then
    [HostEffect.floatCreate height (width + 2) (String.intercalate "\n" content)]
  else
    [HostEffect.pause, HostEffect.previewInfo content, HostEffect.redraw, HostEffect.resume]

/-- `Display.popup` (display.ts lines 50-88): build the content, return with
no effects when it is empty, otherwise compute the window size, center the
lines with the final width (a thrown `RangeError` aborts: first component
`none`, with only the `winSize` queries performed), and dispatch the render.
Returns the final lines (`none` on abort) and the ordered effect trace. -/
def popup (host : Host) (cfg : WinConfig) (caps : RenderCaps) (trans : Translation) :
    Option (List String) × List HostEffect :=
  let content := buildContent trans
  if content.length = 0 then (some content, [])
  else
    let hw := winSize host cfg content
    match centerAll hw.2 content with
    | none => (none, winSizeEffects cfg content)
    | some content2 =>
      (some content2, winSizeEffects cfg content ++ renderEffects caps hw.1 hw.2 content2)

/-- The mutable state of the loop in `Display.echo` (display.ts lines 91-111):
the three has-seen flags and the accumulated fragments. -/
structure EchoState where
  hasPhonetic : Bool
  hasParaphrase : Bool
  hasExplain : Bool
  content : List String
deriving DecidableEq, Repr

/-- The phonetic check of one `echo` iteration (display.ts lines 97-100). -/
def phoneticStep (st : EchoState) (t : EngineResult) : EchoState :=
  match t.phonetic with
  | some p =>
    if p != "" && !st.hasPhonetic then
      { st with content := st.content ++ ["[" ++ p ++ "]"], hasPhonetic := true }
    else st
  | none => st

/-- The paraphrase check of one `echo` iteration (display.ts lines 102-105). -/
def paraphraseStep (st : EchoState) (t : EngineResult) : EchoState :=
  match t.paraphrase with
  | some p =>
    if p != "" && !st.hasParaphrase then
      { st with content := st.content ++ [p], hasParaphrase := true }
    else st
  | none => st

/-- The explain check of one `echo` iteration (display.ts lines 107-110). -/
def explainStep (st : EchoState) (t : EngineResult) : EchoState :=
  if t.explain.length != 0 && !st.hasExplain then
    { st with content := st.content ++ [String.intercalate "; " t.explain], hasExplain := true }
  else st

/-- One full iteration of the `echo` loop: the three checks in source order. -/
def echoStep (st : EchoState) (t : EngineResult) : EchoState :=
  explainStep (paraphraseStep (phoneticStep st t) t) t

/-- `Display.echo` (display.ts lines 90-114): fold the loop over the results
and surface `text ==> fragments-joined-by-spaces`. -/
def echoMessage (trans : Translation) : String :=
  trans.text ++ " ==> "
    ++ String.intercalate " " ((trans.results.foldl echoStep ⟨false, false, false, []⟩).content)

/-- The scan of `Display.replace` (display.ts lines 117-128): the first engine
with a truthy paraphrase triggers the batched register-swap sequence and ends
the scan; with no such engine only the informational message is surfaced. -/
def replaceLoop : List EngineResult → List HostEffect
  | [] => [HostEffect.message "No paraphrase for replacement"]
  | t :: rest =>
    match t.paraphrase with
    | some p =>
      if p != "" then
        [HostEffect.pause, HostEffect.saveRegToTmp, HostEffect.setRegA p,
         HostEffect.pasteReplaceWord, HostEffect.restoreRegFromTmp, HostEffect.resume]
      else replaceLoop rest
    | none => replaceLoop rest

/-- `Display.replace` (display.ts lines 116-129) as its host-effect trace. -/
def replaceEffects (trans : Translation) : List HostEffect :=
  replaceLoop trans.results

/-- The fragments one engine contributes to the `echo` message, given which
fields have already been seen — the per-engine unrolling of `echoStep`. -/
def fragsOf (hp hpa hex : Bool) (t : EngineResult) : List String :=
  (match t.phonetic with
   | some p => if p != "" && !hp then ["[" ++ p ++ "]"] else []
   | none => [])
    ++ (match t.paraphrase with
        | some p => if p != "" && !hpa then [p] else []
        | none => [])
    ++ (if t.explain.length != 0 && !hex then [String.intercalate "; " t.explain] else [])

/-- Amended specification of the `echo` fragment list: scanning the engines in
order, each of the three fields is taken from the first engine with a
non-empty value for it (the flags record fields already seen), and the chosen
fragments appear in the order they are discovered, the phonetic one wrapped in
brackets and the explain entries joined by a semicolon-space. -/
def echoFragmentsSpec (hp hpa hex : Bool) : List EngineResult → List String
  | [] => []
  | t :: rest =>
    fragsOf hp hpa hex t
      ++ echoFragmentsSpec (hp || optTruthy t.phonetic) (hpa || optTruthy t.paraphrase)
          (hex || (t.explain.length != 0)) rest

/-! ### Helper lemmas about the string model -/

theorem isPrefixOf_eq_true_iff {p l : List Char} :
    p.isPrefixOf l = true ↔ ∃ t, l = p ++ t := by
  induction p generalizing l with
  | nil => simp [List.isPrefixOf]
  | cons a as ih =>
    cases l with
    | nil => simp [List.isPrefixOf]
    | cons b bs =>
      simp only [List.isPrefixOf, Bool.and_eq_true, beq_iff_eq, ih, List.cons_append,
        List.cons.injEq]
      constructor
      · rintro ⟨hab, t, ht⟩
        exact ⟨t, hab.symm, ht⟩
      · rintro ⟨t, hba, ht⟩
        exact ⟨hba.symm, t, ht⟩

theorem jsStartsWith_iff (s p : String) :
    jsStartsWith s p = true ↔ ∃ t, s.data = p.data ++ t := by
  rw [jsStartsWith, isPrefixOf_eq_true_iff]

theorem jsStartsWith_dash_iff (s : String) :
    jsStartsWith s "---" = true ↔ ∃ t, s.data = '-' :: '-' :: '-' :: t := by
  rw [jsStartsWith_iff]
  have h : ("---" : String).data = ['-', '-', '-'] := rfl
  rw [h]
  simp

theorem jsStartsWith_at_iff (s : String) :
    jsStartsWith s "@" = true ↔ ∃ t, s.data = '@' :: t := by
  rw [jsStartsWith_iff]
  have h : ("@" : String).data = ['@'] := rfl
  rw [h]
  simp

theorem dash_not_at (s : String) (h : jsStartsWith s "---" = true) :
    jsStartsWith s "@" = false := by
  rw [jsStartsWith_dash_iff] at h
  obtain ⟨t, ht⟩ := h
  rw [Bool.eq_false_iff]
  intro hat
  rw [jsStartsWith_at_iff] at hat
  obtain ⟨u, hu⟩ := hat
  rw [ht] at hu
  have hc : ('-' : Char) = '@' := by injection hu
  exact absurd hc (by decide)

theorem at_not_dash (s : String) (h : jsStartsWith s "@" = true) :
    jsStartsWith s "---" = false := by
  rw [jsStartsWith_at_iff] at h
  obtain ⟨t, ht⟩ := h
  rw [Bool.eq_false_iff]
  intro hd
  rw [jsStartsWith_dash_iff] at hd
  obtain ⟨u, hu⟩ := hd
  rw [ht] at hu
  have hc : ('@' : Char) = '-' := by injection hu
  exact absurd hc (by decide)

theorem jsRepeat_length (c : Char) (n : Nat) : (jsRepeat c n).length = n := by
  simp [jsRepeat]

theorem jsRepeat_zero_append (c : Char) (s : String) : jsRepeat c 0 ++ s = s := by
  apply String.ext
  simp [jsRepeat]

theorem append_jsRepeat_zero (s : String) (c : Char) : s ++ jsRepeat c 0 = s := by
  apply String.ext
  simp [jsRepeat]

theorem strAppend_assoc (a b c : String) : a ++ b ++ c = a ++ (b ++ c) := by
  apply String.ext
  simp

theorem jsRepeat_add (c : Char) (a b : Nat) :
    jsRepeat c (a + b) = jsRepeat c a ++ jsRepeat c b := by
  apply String.ext
  show List.replicate (a + b) c = (jsRepeat c a ++ jsRepeat c b).data
  rw [String.data_append]
  exact List.replicate_add a b c

theorem replicate_dash_cons₃ (n : Nat) (u : List Char) (h : ∃ t, u = '-' :: '-' :: '-' :: t) :
    ∃ t, List.replicate n '-' ++ u = '-' :: '-' :: '-' :: t := by
  induction n with
  | zero => simpa using h
  | succ k ih =>
    obtain ⟨t, ht⟩ := ih
    exact ⟨'-' :: t, by simp [List.replicate_succ, ht]⟩

theorem space_pad_not_dash (n : Nat) (hn : 0 < n) (s : String) :
    jsStartsWith (jsRepeat ' ' n ++ s) "---" = false := by
  rw [Bool.eq_false_iff]
  intro hd
  rw [jsStartsWith_dash_iff] at hd
  obtain ⟨t, ht⟩ := hd
  obtain ⟨m, rfl⟩ := Nat.exists_eq_succ_of_ne_zero (Nat.pos_iff_ne_zero.mp hn)
  rw [String.data_append] at ht
  have hm : (jsRepeat ' ' (m + 1)).data = ' ' :: List.replicate m ' ' := by
    simp [jsRepeat, List.replicate_succ]
  rw [hm] at ht
  have hc : (' ' : Char) = '-' := by injection ht
  exact absurd hc (by decide)

theorem space_pad_not_at (n : Nat) (hn : 0 < n) (s : String) :
    jsStartsWith (jsRepeat ' ' n ++ s) "@" = false := by
  rw [Bool.eq_false_iff]
  intro hd
  rw [jsStartsWith_at_iff] at hd
  obtain ⟨t, ht⟩ := hd
  obtain ⟨m, rfl⟩ := Nat.exists_eq_succ_of_ne_zero (Nat.pos_iff_ne_zero.mp hn)
  rw [String.data_append] at ht
  have hm : (jsRepeat ' ' (m + 1)).data = ' ' :: List.replicate m ' ' := by
    simp [jsRepeat, List.replicate_succ]
  rw [hm] at ht
  have hc : (' ' : Char) = '@' := by injection ht
  exact absurd hc (by decide)

/-! ### Branch lemmas for the centering pass -/

theorem centerLine_divider (width : Nat) (line : String)
    (h1 : jsStartsWith line "---" = true) (h2 : line.length < width) :
    centerLine width line
      = some (jsRepeat '-' ((width - line.length) / 2) ++ line
          ++ jsRepeat '-' ((width - line.length) / 2)
          ++ jsRepeat '-' ((width - line.length) % 2)) := by
  simp [centerLine, h1, h2]

theorem centerLine_divider_wide (width : Nat) (line : String)
    (h1 : jsStartsWith line "---" = true) (h2 : width ≤ line.length) :
    centerLine width line = some line := by
  have h3 : jsStartsWith line "@" = false := dash_not_at line h1
  simp [centerLine, h3, Nat.not_lt.mpr h2]

theorem centerLine_title (width : Nat) (line : String)
    (h1 : jsStartsWith line "@" = true) (h2 : line.length ≤ width) :
    centerLine width line = some (jsRepeat ' ' ((width - line.length) / 2) ++ line) := by
  have h3 : jsStartsWith line "---" = false := at_not_dash line h1
  simp [centerLine, h3, h1, h2]

theorem centerLine_title_overflow (width : Nat) (line : String)
    (h1 : jsStartsWith line "@" = true) (h2 : width < line.length) :
    centerLine width line = none := by
  simp [centerLine, h1, Nat.not_lt.mpr (Nat.le_of_lt h2), Nat.not_le.mpr h2]

theorem centerLine_other (width : Nat) (line : String)
    (h1 : jsStartsWith line "---" = false) (h2 : jsStartsWith line "@" = false) :
    centerLine width line = some line := by
  simp [centerLine, h1, h2]

theorem centerLine_padded (width : Nat) (line line2 : String)
    (h : centerLine width line = some line2) :
    ∃ c n d m, line2 = jsRepeat c n ++ line ++ jsRepeat d m := by
  by_cases h1 : jsStartsWith line "---" = true
  · by_cases h2 : line.length < width
    · rw [centerLine_divider width line h1 h2] at h
      injection h with h
      refine ⟨'-', (width - line.length) / 2, '-',
        (width - line.length) / 2 + (width - line.length) % 2, ?_⟩
      rw [jsRepeat_add, ← strAppend_assoc]
      exact h.symm
    · rw [centerLine_divider_wide width line h1 (Nat.not_lt.mp h2)] at h
      injection h with h
      exact ⟨' ', 0, ' ', 0, by rw [append_jsRepeat_zero, jsRepeat_zero_append, h]⟩
  · replace h1 : jsStartsWith line "---" = false := Bool.eq_false_iff.mpr h1
    by_cases hat : jsStartsWith line "@" = true
    · by_cases hle : line.length ≤ width
      · rw [centerLine_title width line hat hle] at h
        injection h with h
        exact ⟨' ', (width - line.length) / 2, ' ', 0, by rw [append_jsRepeat_zero, h]⟩
      · rw [centerLine_title_overflow width line hat (Nat.not_le.mp hle)] at h
        exact absurd h (by simp)
    · replace hat : jsStartsWith line "@" = false := Bool.eq_false_iff.mpr hat
      rw [centerLine_other width line h1 hat] at h
      injection h with h
      exact ⟨' ', 0, ' ', 0, by rw [append_jsRepeat_zero, jsRepeat_zero_append, h]⟩

theorem centerAll_forall₂ (width : Nat) (content content2 : List String)
    (h : centerAll width content = some content2) :
    List.Forall₂ (fun a b => ∃ c n d m, b = jsRepeat c n ++ a ++ jsRepeat d m) content content2 := by
  induction content generalizing content2 with
  | nil =>
    rw [centerAll] at h
    injection h with h
    subst h
    exact List.Forall₂.nil
  | cons line rest ih =>
    rw [centerAll] at h
    cases hline : centerLine width line with
    | none => rw [hline] at h; exact absurd h (by simp)
    | some line2 =>
      rw [hline] at h
      cases hrest : centerAll width rest with
      | none => rw [hrest] at h; exact absurd h (by simp)
      | some rest2 =>
        rw [hrest] at h
        injection h with h
        subst h
        exact List.Forall₂.cons (centerLine_padded width line line2 hline) (ih rest2 hrest)

theorem centerAll_length (width : Nat) (content content2 : List String)
    (h : centerAll width content = some content2) : content2.length = content.length :=
  (centerAll_forall₂ width content content2 h).length_eq.symm

theorem centerLine_idem (width : Nat) (line line2 : String)
    (h : centerLine width line = some line2) : centerLine width line2 = some line2 := by
  by_cases h1 : jsStartsWith line "---" = true
  · by_cases h2 : line.length < width
    · rw [centerLine_divider width line h1 h2] at h
      injection h with h
      have hstart : jsStartsWith line2 "---" = true := by
        rw [jsStartsWith_dash_iff]
        obtain ⟨t, ht⟩ := (jsStartsWith_dash_iff line).mp h1
        have hdata : line2.data
            = List.replicate ((width - line.length) / 2) '-'
              ++ (line.data ++ (List.replicate ((width - line.length) / 2) '-'
                  ++ List.replicate ((width - line.length) % 2) '-')) := by
          rw [← h]
          simp [jsRepeat, List.append_assoc]
        rw [hdata]
        apply replicate_dash_cons₃
        exact ⟨t ++ (List.replicate ((width - line.length) / 2) '-'
          ++ List.replicate ((width - line.length) % 2) '-'), by rw [ht]; simp⟩
      have hlen : line2.length = width := by
        rw [← h]
        simp only [String.length_append, jsRepeat_length]
        omega
      exact centerLine_divider_wide width line2 hstart (Nat.le_of_eq hlen.symm)
    · rw [centerLine_divider_wide width line h1 (Nat.not_lt.mp h2)] at h
      injection h with h
      subst h
      exact centerLine_divider_wide width line h1 (Nat.not_lt.mp h2)
  · replace h1 : jsStartsWith line "---" = false := Bool.eq_false_iff.mpr h1
    by_cases hat : jsStartsWith line "@" = true
    · by_cases hle : line.length ≤ width
      · rw [centerLine_title width line hat hle] at h
        injection h with h
        rcases Nat.eq_zero_or_pos ((width - line.length) / 2) with hp | hp
        · rw [hp, jsRepeat_zero_append] at h
          subst h
          rw [centerLine_title width line hat hle, hp, jsRepeat_zero_append]
        · have hnd : jsStartsWith line2 "---" = false := by
            rw [← h]
            exact space_pad_not_dash _ hp line
          have hna : jsStartsWith line2 "@" = false := by
            rw [← h]
            exact space_pad_not_at _ hp line
          exact centerLine_other width line2 hnd hna
      · rw [centerLine_title_overflow width line hat (Nat.not_le.mp hle)] at h
        exact absurd h (by simp)
    · replace hat : jsStartsWith line "@" = false := Bool.eq_false_iff.mpr hat
      rw [centerLine_other width line h1 hat] at h
      injection h with h
      subst h
      exact centerLine_other width line h1 hat

theorem centerAll_idem (width : Nat) (content content2 : List String)
    (h : centerAll width content = some content2) :
    centerAll width content2 = some content2 := by
  induction content generalizing content2 with
  | nil =>
    rw [centerAll] at h
    injection h with h
    subst h
    rfl
  | cons line rest ih =>
    rw [centerAll] at h
    cases hline : centerLine width line with
    | none => rw [hline] at h; exact absurd h (by simp)
    | some line2 =>
      rw [hline] at h
      cases hrest : centerAll width rest with
      | none => rw [hrest] at h; exact absurd h (by simp)
      | some rest2 =>
        rw [hrest] at h
        injection h with h
        subst h
        rw [centerAll, centerLine_idem width line line2 hline, ih rest2 hrest]

/-! ### Helper lemmas about the echo loop and the size loop -/

theorem echoStep_eq (st : EchoState) (t : EngineResult) :
    echoStep st t
      = ⟨st.hasPhonetic || optTruthy t.phonetic,
         st.hasParaphrase || optTruthy t.paraphrase,
         st.hasExplain || (t.explain.length != 0),
         st.content ++ fragsOf st.hasPhonetic st.hasParaphrase st.hasExplain t⟩ := by
  obtain ⟨hp, hpa, hex, cont⟩ := st
  obtain ⟨e, ph, pa, ex⟩ := t
  cases ph <;> cases pa <;>
    simp only [echoStep, phoneticStep, paraphraseStep, explainStep, fragsOf, optTruthy] <;>
    cases hp <;> cases hpa <;> cases hex <;>
    split_ifs <;>
    simp_all [List.append_assoc]

theorem echo_foldl_spec (results : List EngineResult) (st : EchoState) :
    (results.foldl echoStep st).content
      = st.content
        ++ echoFragmentsSpec st.hasPhonetic st.hasParaphrase st.hasExplain results := by
  induction results generalizing st with
  | nil => simp [echoFragmentsSpec]
  | cons t rest ih =>
    rw [List.foldl_cons, echoStep_eq, ih]
    simp [echoFragmentsSpec, List.append_assoc]

theorem winSizeLoop_width_fixed (maxWidth : Nat) (h : Nat) (rest : List Nat) :
    (winSizeLoop maxWidth (h, maxWidth) rest).2 = maxWidth := by
  induction rest generalizing h with
  | nil => rfl
  | cons lw rest2 ih =>
    rw [winSizeLoop, List.foldl_cons]
    by_cases hlt : lw > maxWidth
    · have hstep : winSizeStep maxWidth (h, maxWidth) lw
          = (h + lw / maxWidth + 1, maxWidth) := by
        simp [winSizeStep, hlt]
      rw [hstep]
      exact ih (h + lw / maxWidth + 1)
    · have hstep : winSizeStep maxWidth (h, maxWidth) lw = (h + 1, maxWidth) := by
        simp [winSizeStep, hlt, Nat.max_eq_right (Nat.not_lt.mp hlt)]
      rw [hstep]
      exact ih (h + 1)

theorem winSize_height_le (host : Host) (cfg : WinConfig) (content : List String) :
    (winSize host cfg content).1 ≤ resolveDim cfg.maxHeight host.rows := by
  simp only [winSize]
  split <;> omega

theorem buildContent_ne_nil (trans : Translation) : buildContent trans ≠ [] := by
  rw [buildContent]
  simp

theorem winSizeEffects_ne_nil (cfg : WinConfig) (line : String) (rest : List String) :
    winSizeEffects cfg (line :: rest) ≠ [] := by
  simp [winSizeEffects]

theorem popup_trace_shape (host : Host) (cfg : WinConfig) (caps : RenderCaps)
    (trans : Translation) (h : ¬(buildContent trans).length = 0) :
    ∃ tail, (popup host cfg caps trans).2
      = winSizeEffects cfg (buildContent trans) ++ tail := by
  simp only [popup]
  rw [if_neg h]
  cases hc : centerAll (winSize host cfg (buildContent trans)).2 (buildContent trans) with
  | none => exact ⟨[], by simp⟩
  | some c2 =>
    exact ⟨renderEffects caps (winSize host cfg (buildContent trans)).1
      (winSize host cfg (buildContent trans)).2 c2, rfl⟩

theorem popup_result_length (host : Host) (cfg : WinConfig) (caps : RenderCaps)
    (trans : Translation) (content2 : List String)
    (h : (popup host cfg caps trans).1 = some content2) :
    content2.length = (buildContent trans).length := by
  simp only [popup] at h
  by_cases h0 : (buildContent trans).length = 0
  · rw [if_pos h0] at h
    injection h with h
    rw [← h]
  · rw [if_neg h0] at h
    cases hc : centerAll (winSize host cfg (buildContent trans)).2 (buildContent trans) with
    | none => rw [hc] at h; exact absurd h (by simp)
    | some c2 =>
      rw [hc] at h
      injection h with h
      rw [← h]
      exact centerAll_length _ _ _ hc

theorem replaceLoop_cons_skip (t : EngineResult) (rest : List EngineResult)
    (h : optTruthy t.paraphrase = false) : replaceLoop (t :: rest) = replaceLoop rest := by
  cases hp : t.paraphrase with
  | none => rw [replaceLoop, hp]
  | some p =>
    rw [hp] at h
    simp only [optTruthy] at h
    rw [replaceLoop, hp]
    simp [h]

theorem replaceLoop_cons_take (t : EngineResult) (rest : List EngineResult) (p : String)
    (hp : t.paraphrase = some p) (h : (p != "") = true) :
    replaceLoop (t :: rest)
      = [HostEffect.pause, HostEffect.saveRegToTmp, HostEffect.setRegA p,
         HostEffect.pasteReplaceWord, HostEffect.restoreRegFromTmp, HostEffect.resume] := by
  rw [replaceLoop, hp]
  simp [h]

/-! ### Claims -/

/-- C1 counterexample: for the `Translation` with text `x` and empty
`results`, `popup` does perform host calls (here a `strdisplaywidth` query and
the overlay creation), refuting "no host calls occur": the built content is
the single title line, so it is not empty and the short-circuit never fires. -/
theorem c1_counterexample :
    (popup ⟨100, 50, fun l => l.length⟩ ⟨10, 10⟩ ⟨true, false⟩ ⟨"x", []⟩).2 ≠ [] := by
  decide

/-- C1 (amended): for every `Translation` with `results = []`, `buildContent`
returns exactly the one title line `@ text @`; since the built content always
contains the title it is never empty, so `popup` does not short-circuit on such
a `Translation` and its host-call trace is non-empty (the guard returning with
no host call fires only on literally empty content, which never occurs). -/
theorem c1_empty_results_one_title_line_and_host_calls_occur
    (trans : Translation) (host : Host) (cfg : WinConfig) (caps : RenderCaps)
    (h : trans.results = []) :
    buildContent trans = ["@ " ++ trans.text ++ " @"]
      ∧ buildContent trans ≠ []
      ∧ (popup host cfg caps trans).2 ≠ [] := by
  have hbc : buildContent trans = ["@ " ++ trans.text ++ " @"] := by
    rw [buildContent, h]
    rfl
  refine ⟨hbc, buildContent_ne_nil trans, ?_⟩
  obtain ⟨tail, htail⟩ := popup_trace_shape host cfg caps trans (by rw [hbc]; simp)
  rw [htail, hbc]
  intro hnil
  exact winSizeEffects_ne_nil cfg _ [] (List.append_eq_nil.mp hnil).1

/-- C1 witness: the amended claim at the concrete `Translation` with text `x`
and empty results, a 100x50 host whose display width is the character count,
a 10x10 size configuration and a floating-capable host. -/
theorem c1_witness :
    buildContent ⟨"x", []⟩ = ["@ " ++ "x" ++ " @"]
      ∧ buildContent ⟨"x", []⟩ ≠ []
      ∧ (popup ⟨100, 50, fun l => l.length⟩ ⟨10, 10⟩ ⟨true, false⟩ ⟨"x", []⟩).2 ≠ [] :=
  c1_empty_results_one_title_line_and_host_calls_occur ⟨"x", []⟩
    ⟨100, 50, fun l => l.length⟩ ⟨10, 10⟩ ⟨true, false⟩ rfl

/-- C2: one iteration of the `winSize` loop on a line of display width `dw`
adds exactly one row and takes the running maximum of widths when
`dw + 2 ≤ maxWidth`, and adds `floor((dw + 2) / maxWidth) + 1` rows while
forcing `width = maxWidth` when `dw + 2 > maxWidth`; once the running width is
`maxWidth` it stays `maxWidth` for the rest of the fold.  Stated for a
positive resolved `maxWidth` (with `maxWidth = 0` the JS division in the
overflow branch is not integral). -/
theorem c2_winsize_loop_branches (maxWidth h w dw : Nat) (_hpos : 0 < maxWidth) :
    (dw + 2 ≤ maxWidth → winSizeStep maxWidth (h, w) (dw + 2) = (h + 1, max (dw + 2) w))
      ∧ (dw + 2 > maxWidth →
          winSizeStep maxWidth (h, w) (dw + 2) = (h + (dw + 2) / maxWidth + 1, maxWidth))
      ∧ (∀ rest : List Nat, (winSizeLoop maxWidth (h, maxWidth) rest).2 = maxWidth) := by
  refine ⟨?_, ?_, winSizeLoop_width_fixed maxWidth h⟩
  · intro hle
    simp [winSizeStep, Nat.not_lt.mpr hle]
  · intro hgt
    simp [winSizeStep, hgt]

/-- C2 witness: the loop branches at `maxWidth = 60` on a fitting line of
display width 58 and an overflowing one of display width 128, and the width
staying at 60 over a further concrete list of line widths. -/
theorem c2_witness :
    winSizeStep 60 (0, 0) (58 + 2) = (0 + 1, max (58 + 2) 0)
      ∧ winSizeStep 60 (0, 5) (128 + 2) = (0 + (128 + 2) / 60 + 1, 60)
      ∧ (winSizeLoop 60 (0, 60) [17, 200]).2 = 60 :=
  ⟨(c2_winsize_loop_branches 60 0 0 58 (by decide)).1 (by decide),
   (c2_winsize_loop_branches 60 0 5 128 (by decide)).2.1 (by decide),
   (c2_winsize_loop_branches 60 0 0 58 (by decide)).2.2 [17, 200]⟩

/-- C3 counterexample: with `width = 3`, the line `@aaaa` starts with the
title marker but is not shorter than the width, so under the claim it is one
of the "other lines" and should be unchanged; the code instead computes a
negative repeat count and throws (modelled `none`). -/
theorem c3_counterexample :
    jsStartsWith "@aaaa" "@" = true
      ∧ ¬("@aaaa".length < 3)
      ∧ centerLine 3 "@aaaa" = none
      ∧ centerLine 3 "@aaaa" ≠ some "@aaaa" := by
  decide

/-- C3 (amended): in the centering pass with the final `width`, a line
starting with `---` shorter than `width` is surrounded by
`floor((width - len) / 2)` dashes on both sides plus one extra dash on the
right iff `width - len` is odd; a line starting with `@` shorter than `width`
gets the same padding only on the left; a line starting with `@` of length
exactly `width`, a line starting with `---` not shorter than `width`, and a
line starting with neither marker are unchanged — except that a line starting
with `@` longer than `width` makes the repeat count negative and the pass
fails (popup rejects) instead of leaving the line unchanged. -/
theorem c3_centering_pass_cases (width : Nat) (line : String) :
    (jsStartsWith line "---" = true → width > line.length →
        centerLine width line
          = some (jsRepeat '-' ((width - line.length) / 2) ++ line
              ++ jsRepeat '-' ((width - line.length) / 2)
              ++ jsRepeat '-' ((width - line.length) % 2)))
      ∧ (jsStartsWith line "@" = true → width > line.length →
          centerLine width line = some (jsRepeat ' ' ((width - line.length) / 2) ++ line))
      ∧ (jsStartsWith line "@" = true → line.length = width →
          centerLine width line = some line)
      ∧ (jsStartsWith line "---" = true → ¬(width > line.length) →
          centerLine width line = some line)
      ∧ (jsStartsWith line "---" = false → jsStartsWith line "@" = false →
          centerLine width line = some line)
      ∧ (jsStartsWith line "@" = true → width < line.length →
          centerLine width line = none) := by
  refine ⟨fun h1 h2 => centerLine_divider width line h1 h2,
    fun h1 h2 => centerLine_title width line h1 (Nat.le_of_lt h2),
    fun h1 h2 => ?_,
    fun h1 h2 => centerLine_divider_wide width line h1 (Nat.not_lt.mp h2),
    fun h1 h2 => centerLine_other width line h1 h2,
    fun h1 h2 => centerLine_title_overflow width line h1 h2⟩
  rw [centerLine_title width line h1 (Nat.le_of_eq h2), h2, Nat.sub_self]
  rw [show (0 : Nat) / 2 = 0 from rfl, jsRepeat_zero_append]

/-- C3 witness: the amended cases at concrete lines — a divider line `---a`
centered into width 9, a title line `@ x @` left-padded into width 9, and an
ordinary line `hello` left unchanged at width 5. -/
theorem c3_witness :
    centerLine 9 "---a"
        = some (jsRepeat '-' ((9 - "---a".length) / 2) ++ "---a"
            ++ jsRepeat '-' ((9 - "---a".length) / 2)
            ++ jsRepeat '-' ((9 - "---a".length) % 2))
      ∧ centerLine 9 "@ x @" = some (jsRepeat ' ' ((9 - "@ x @".length) / 2) ++ "@ x @")
      ∧ centerLine 5 "hello" = some "hello" :=
  ⟨(c3_centering_pass_cases 9 "---a").1 (by decide) (by decide),
   (c3_centering_pass_cases 9 "@ x @").2.1 (by decide) (by decide),
   (c3_centering_pass_cases 5 "hello").2.2.2.2.1 (by decide) (by decide)⟩

/-- C4 counterexample: on the spec example — a first engine with only
paraphrase `A`, a second with paraphrase `B` and phonetic `/b/` — `echo`
produces `w ==> A [/b/]` (fragments in discovery order, phonetic bracketed),
not the claimed `w ==> /b/ A`. -/
theorem c4_counterexample :
    echoMessage ⟨"w", [⟨"e1", none, some "A", []⟩, ⟨"e2", some "/b/", some "B", []⟩]⟩
        = "w ==> A [/b/]"
      ∧ echoMessage ⟨"w", [⟨"e1", none, some "A", []⟩, ⟨"e2", some "/b/", some "B", []⟩]⟩
        ≠ "w ==> /b/ A" := by
  decide

/-- C4 (amended): `echo` takes, for each of the three fields, the value of the
first engine (in `trans.results` order) with a non-empty value, ignoring later
engines for that field; the chosen fragments are appended in the order they
are discovered while scanning (within one engine: phonetic — wrapped in
brackets — then paraphrase, then the explain entries joined by `; `), and the
message joins them with single spaces after the prefix `text ==> `; on the
spec example the message is `w ==> A [/b/]`. -/
theorem c4_echo_first_nonempty_discovery_order (trans : Translation) :
    echoMessage trans
        = trans.text ++ " ==> "
          ++ String.intercalate " " (echoFragmentsSpec false false false trans.results)
      ∧ echoMessage ⟨"w", [⟨"e1", none, some "A", []⟩, ⟨"e2", some "/b/", some "B", []⟩]⟩
        = "w ==> A [/b/]" := by
  constructor
  · rw [echoMessage, echo_foldl_spec]
    rfl
  · decide

/-- C5: `replace` scans the engines in order; at the first engine with a
truthy paraphrase it issues exactly the batched sequence pause, save register,
set register to the paraphrase, paste over the word, restore register, resume,
and stops scanning; when no engine has a truthy paraphrase it issues no host
command, only the informational message. -/
theorem c5_replace_first_paraphrase_batch (trans : Translation) :
    (∀ t, trans.results.find? (fun r => optTruthy r.paraphrase) = some t →
        replaceEffects trans
          = [HostEffect.pause, HostEffect.saveRegToTmp,
             HostEffect.setRegA (t.paraphrase.getD ""),
             HostEffect.pasteReplaceWord, HostEffect.restoreRegFromTmp, HostEffect.resume])
      ∧ (trans.results.find? (fun r => optTruthy r.paraphrase) = none →
          replaceEffects trans = [HostEffect.message "No paraphrase for replacement"]) := by
  rw [replaceEffects]
  induction trans.results with
  | nil =>
    constructor
    · intro t ht
      exact absurd ht (by simp)
    · intro _
      rfl
  | cons t rest ih =>
    constructor
    · intro t2 ht2
      cases htr : optTruthy t.paraphrase with
      | true =>
        rw [List.find?_cons_of_pos rest htr] at ht2
        injection ht2 with ht2
        subst ht2
        cases hp : t.paraphrase with
        | none =>
          rw [hp] at htr
          exact absurd htr (by simp [optTruthy])
        | some p =>
          have hne : (p != "") = true := by
            rw [hp] at htr
            simpa [optTruthy] using htr
          rw [replaceLoop_cons_take t rest p hp hne]
          rfl
      | false =>
        rw [List.find?_cons_of_neg rest (by simp [htr])] at ht2
        rw [replaceLoop_cons_skip t rest htr]
        exact ih.1 t2 ht2
    · intro hnone
      cases htr : optTruthy t.paraphrase with
      | true =>
        rw [List.find?_cons_of_pos rest htr] at hnone
        exact absurd hnone (by simp)
      | false =>
        rw [List.find?_cons_of_neg rest (by simp [htr])] at hnone
        rw [replaceLoop_cons_skip t rest htr]
        exact ih.2 hnone

/-- C5 witness: the spec scenario — a first engine without paraphrase and a
second with paraphrase `hello` — produces the four-command batch targeting
`hello`; and with no paraphrase anywhere only the message is surfaced. -/
theorem c5_witness :
    replaceEffects ⟨"w", [⟨"e1", none, none, []⟩, ⟨"e2", none, some "hello", []⟩]⟩
        = [HostEffect.pause, HostEffect.saveRegToTmp, HostEffect.setRegA "hello",
           HostEffect.pasteReplaceWord, HostEffect.restoreRegFromTmp, HostEffect.resume]
      ∧ replaceEffects ⟨"w", [⟨"e1", none, none, []⟩, ⟨"e2", none, none, []⟩]⟩
        = [HostEffect.message "No paraphrase for replacement"] :=
  ⟨(c5_replace_first_paraphrase_batch ⟨"w", [⟨"e1", none, none, []⟩,
      ⟨"e2", none, some "hello", []⟩]⟩).1 ⟨"e2", none, some "hello", []⟩ (by decide),
   (c5_replace_first_paraphrase_batch ⟨"w", [⟨"e1", none, none, []⟩,
      ⟨"e2", none, none, []⟩]⟩).2 (by decide)⟩


/-- C6: the height returned by `winSize` never exceeds the resolved
`maxHeight`, while the line list is never truncated to match: whenever `popup`
completes, its final line list has exactly the length of the built content. -/
theorem c6_height_clamped_lines_not_truncated
    (host : Host) (cfg : WinConfig) (caps : RenderCaps) (trans : Translation)
    (content content2 : List String)
    (h : (popup host cfg caps trans).1 = some content2) :
    (winSize host cfg content).1 ≤ resolveDim cfg.maxHeight host.rows
      ∧ content2.length = (buildContent trans).length :=
  ⟨winSize_height_le host cfg content,
   popup_result_length host cfg caps trans content2 h⟩

/-- C6 witness: the clamp and the length preservation at a concrete popup run
(text `x`, no results, 10x10 configuration, character-count display width). -/
theorem c6_witness :
    (winSize ⟨100, 50, fun l => l.length⟩ ⟨10, 10⟩ ["abc"]).1 ≤ resolveDim 10 50
      ∧ ([" @ x @"] : List String).length = (buildContent ⟨"x", []⟩).length :=
  c6_height_clamped_lines_not_truncated ⟨100, 50, fun l => l.length⟩ ⟨10, 10⟩
    ⟨true, false⟩ ⟨"x", []⟩ ["abc"] [" @ x @"] (by decide)

/-- C7: a configured dimension of `0` is resolved by `winSize` to
`round(0.6 * viewport-dimension)` — characterized by
`10 * resolved ≤ 6 * d + 5 < 10 * resolved + 10` — so 100 viewport columns
resolve to `maxWidth = 60`, and a line of display width 58 (so `58 + 2 = 60`)
takes the non-overflow branch, contributing one row and `width = 60`. -/
theorem c7_sentinel_resolution (host : Host) (mh : Nat) (line : String)
    (h1 : host.columns = 100) (h2 : host.strdisplaywidth line = 58)
    (h3 : 1 ≤ resolveDim mh host.rows) :
    (∀ d : Nat, 10 * resolveDim 0 d ≤ 6 * d + 5 ∧ 6 * d < 10 * resolveDim 0 d + 10)
      ∧ resolveDim 0 host.columns = 60
      ∧ winSize host ⟨0, mh⟩ [line] = (1, 60) := by
  have hmw : resolveDim 0 host.columns = 60 := by
    rw [h1]
    rfl
  refine ⟨?_, hmw, ?_⟩
  · intro d
    have hd : resolveDim 0 d = (6 * d + 5) / 10 := rfl
    rw [hd]
    omega
  · simp only [winSize, winSizeLoop, List.map_cons, List.map_nil, List.foldl_cons,
      List.foldl_nil, h2, hmw]
    have hstep : winSizeStep 60 (0, 0) (58 + 2) = (1, 60) := by decide
    rw [hstep]
    rw [if_neg (Nat.not_lt.mpr h3)]

/-- C7 witness: the resolution and the fitting line at the concrete host with
100 columns, 50 rows and constant display width 58. -/
theorem c7_witness :
    (∀ d : Nat, 10 * resolveDim 0 d ≤ 6 * d + 5 ∧ 6 * d < 10 * resolveDim 0 d + 10)
      ∧ resolveDim 0 (100 : Nat) = 60
      ∧ winSize ⟨100, 50, fun _ => 58⟩ ⟨0, 0⟩ ["x"] = (1, 60) :=
  c7_sentinel_resolution ⟨100, 50, fun _ => 58⟩ 0 "x" rfl rfl (by decide)

/-- C8: the centering pass preserves the number and the order of the lines:
when it completes, the output has the same length as the input and line `i` of
the output is line `i` of the input with filler characters added on the left
and on the right only. -/
theorem c8_centering_preserves_order (width : Nat) (content content2 : List String)
    (h : centerAll width content = some content2) :
    content2.length = content.length
      ∧ List.Forall₂ (fun a b => ∃ c n d m, b = jsRepeat c n ++ a ++ jsRepeat d m)
          content content2 :=
  ⟨centerAll_length width content content2 h, centerAll_forall₂ width content content2 h⟩

/-- C8 witness: the pass at width 9 on the single title line `@ x @`, which is
padded to `  @ x @`: same length, pointwise padded. -/
theorem c8_witness :
    (["  @ x @"] : List String).length = (["@ x @"] : List String).length
      ∧ List.Forall₂ (fun a b => ∃ c n d m, b = jsRepeat c n ++ a ++ jsRepeat d m)
          ["@ x @"] ["  @ x @"] :=
  c8_centering_preserves_order 9 ["@ x @"] ["  @ x @"] (by decide)

/-- C9: centering is idempotent — a divider line whose length already equals
the target width is left unchanged (zero padding added), and re-running the
whole centering pass with the same width on its own output reproduces the same
lines. -/
theorem c9_centering_idempotent (width : Nat) (line : String)
    (content content2 : List String)
    (h1 : jsStartsWith line "---" = true) (h2 : line.length = width) :
    centerLine width line = some line
      ∧ (centerAll width content = some content2 → centerAll width content2 = some content2) :=
  ⟨centerLine_divider_wide width line h1 (Nat.le_of_eq h2.symm),
   centerAll_idem width content content2⟩

/-- C9 witness: the divider `---` at width 3 is unchanged, and re-centering
the already-centered output of width 3 on `["ab"]` reproduces it. -/
theorem c9_witness :
    centerLine 3 "---" = some "---" ∧ centerAll 3 ["ab"] = some ["ab"] :=
  ⟨(c9_centering_idempotent 3 "---" ["ab"] ["ab"] (by decide) (by decide)).1,
   (c9_centering_idempotent 3 "---" ["ab"] ["ab"] (by decide) (by decide)).2 (by decide)⟩

/-- C10: the title branch of the centering pass has no shorter-than-width
guard: every line starting with `@` and longer than `width` makes the repeat
count negative, so the line fails to center (`none`) instead of being left
unchanged — and this is reachable: for the `Translation` with text
`xxxxxxxxxx` and one engine `e` under `maxWidth = 10`, the computed width 10
is smaller than the 14-character title line, and `popup` rejects. -/
theorem c10_title_longer_than_width_rejects (width : Nat) (line : String)
    (h1 : jsStartsWith line "@" = true) (h2 : width < line.length) :
    centerLine width line = none
      ∧ (winSize ⟨100, 50, fun l => l.length⟩ ⟨10, 100⟩
            (buildContent ⟨"xxxxxxxxxx", [⟨"e", none, none, []⟩]⟩)).2
          < ("@ xxxxxxxxxx @" : String).length
      ∧ (popup ⟨100, 50, fun l => l.length⟩ ⟨10, 100⟩ ⟨true, false⟩
            ⟨"xxxxxxxxxx", [⟨"e", none, none, []⟩]⟩).1 = none :=
  ⟨centerLine_title_overflow width line h1 h2, by decide, by decide⟩

/-- C10 witness: the failing branch at the concrete line `@abcdef` and width
5, together with the concrete rejecting popup run. -/
theorem c10_witness :
    centerLine 5 "@abcdef" = none
      ∧ (winSize ⟨100, 50, fun l => l.length⟩ ⟨10, 100⟩
            (buildContent ⟨"xxxxxxxxxx", [⟨"e", none, none, []⟩]⟩)).2
          < ("@ xxxxxxxxxx @" : String).length
      ∧ (popup ⟨100, 50, fun l => l.length⟩ ⟨10, 100⟩ ⟨true, false⟩
            ⟨"xxxxxxxxxx", [⟨"e", none, none, []⟩]⟩).1 = none :=
  c10_title_longer_than_width_rejects 5 "@abcdef" (by decide) (by decide)
